import Mathlib

/-!
Verification development for the `Predict` view of the ResQBridge frontend
(`src/src/Pages/Predict.tsx`).  The component's state, its event handlers
(`handleFileChange`, `handleAnalyze`), the `convertFileToBase64` helper, the
preview-URL effect, and the summary rendering are embedded as executable Lean
definitions; asynchronous outcomes (file reading, the `analyzeImage` call) are
passed in explicitly, and `handleAnalyze` additionally returns the ordered
trace of state updates and external calls it performs.
-/

namespace ResQBridge

/-- A JavaScript rejection value: either a bare string (as thrown by
`reject("Error reading file")`) or an `Error`-like object with an optional
`message` property. -/
inductive JsRejection where
  | str (s : String)
  | errObj (message : Option String)
deriving DecidableEq, Repr

/-- Reading `err.message`: a bare string has no `message` property
(`undefined`, modelled as `none`); an object yields its field. -/
def JsRejection.messageField : JsRejection → Option String
  | .str _ => none
  | .errObj m => m

/-- JavaScript `a || b` where `a` is a string-or-undefined: yields `b` when
`a` is `undefined` or the (falsy) empty string, otherwise `a`. -/
def jsOrString (a : Option String) (b : String) : String :=
  match a with
  | some s => if s = "" then b else s
  | none => none.getD b

/-- A browser `File`.  `readOutcome` is the behaviour of
`FileReader.readAsDataURL` on it: `some dataUrl` when the read succeeds and
`onloadend` fires with that result, `none` when `onerror` fires. -/
structure File where
  name : String
  readOutcome : Option String
deriving DecidableEq, Repr

/-- `convertFileToBase64`: resolves with the reader's data-URL result, or
rejects with the bare string `"Error reading file"` on a read error. -/
def convertFileToBase64 (file : File) : Except JsRejection String :=
  match file.readOutcome with
  | some s => .ok s
  | none => .error (.str "Error reading file")

/-- The `Detection` interface. -/
structure Detection where
  «class» : String
  confidence : ℚ
  severity : Option String
deriving DecidableEq, Repr

/-- The `AnalyzeResult` interface. -/
structure AnalyzeResult where
  success : Bool
  accidentDetected : Bool
  detection : Option Detection
  processedImage : Option String
deriving DecidableEq, Repr

/-- The shape of a successful `analyzeImage` response, as read by
`handleAnalyze` (same fields as `AnalyzeResult`). -/
structure ApiResponse where
  success : Bool
  accidentDetected : Bool
  detection : Option Detection
  processedImage : Option String
deriving DecidableEq, Repr

/-- The component's `useState` fields. -/
structure PredictState where
  imageFile : Option File
  previewUrl : Option String
  result : Option AnalyzeResult
  loading : Bool
  error : Option String
deriving DecidableEq, Repr

/-- Initial state of the component's hooks. -/
def initialState : PredictState :=
  { imageFile := none, previewUrl := none, result := none,
    loading := false, error := none }

/-- One observable step of `handleAnalyze`: a state update (`setX`), the
completion of the file encoding, or a call to `analyzeImage`. -/
inductive Event where
  | setLoading (b : Bool)
  | setError (e : Option String)
  | setResult (r : Option AnalyzeResult)
  | encodeDone (payload : String)
  | apiCall (payload : String)
deriving DecidableEq, Repr

/-- Whether an event is a call to `analyzeImage`. -/
def Event.isApiCall : Event → Bool
  | .apiCall _ => true
  | _ => false

/-- `handleAnalyze`, with the behaviour of the external `analyzeImage`
collaborator passed in as `api`.  Returns the final component state together
with the ordered trace of updates and calls performed. -/
def handleAnalyze (s : PredictState)
    (api : String → Except JsRejection ApiResponse) :
    PredictState × List Event :=
  match s.imageFile with
  | none =>
      ({ s with error := some "Please select an image to analyze." },
       [.setError (some "Please select an image to analyze.")])
  | some imageFile =>
      let s1 : PredictState := { s with loading := true, error := none, result := none }
      let pre : List Event := [.setLoading true, .setError none, .setResult none]
      match convertFileToBase64 imageFile with
      | .error err =>
          let msg := jsOrString err.messageField "Error analyzing image"
          ({ s1 with error := some msg, loading := false },
           pre ++ [.setError (some msg), .setLoading false])
      | .ok base64 =>
          match api base64 with
          | .error err =>
              let msg := jsOrString err.messageField "Error analyzing image"
              ({ s1 with error := some msg, loading := false },
               pre ++ [.encodeDone base64, .apiCall base64,
                       .setError (some msg), .setLoading false])
          | .ok response =>
              let simplifiedResult : AnalyzeResult :=
                { success := response.success,
                  accidentDetected := response.accidentDetected,
                  detection := response.detection,
                  processedImage := response.processedImage }
              ({ s1 with result := some simplifiedResult, loading := false },
               pre ++ [.encodeDone base64, .apiCall base64,
                       .setResult (some simplifiedResult), .setLoading false])

/-- `handleFileChange`: clears the error; when the change event carries a
file, stores it and clears the result. -/
def handleFileChange (s : PredictState) (files : Option File) : PredictState :=
  let s0 : PredictState := { s with error := none }
  match files with
  | some f => { s0 with imageFile := some f, result := none }
  | none => s0

/-- `(x * 100).toFixed(1)`: the JS number `x` (modelled as an exact
rational) multiplied by 100 and printed with exactly one decimal place,
rounding to the nearest tenth with halves up.  The rounded integer number of
tenths is `⌊x * 1000 + 1/2⌋`, computed here directly on the rational's
fields by a floor division so that it evaluates by kernel reduction. -/
def toFixed1Percent (x : ℚ) : String :=
  let n : ℤ := (x.num * 2000 + (x.den : ℤ)).fdiv (2 * (x.den : ℤ))
  toString (n.fdiv 10) ++ "." ++ toString (n.emod 10)

/-- The lines of the detection block of the rendered summary: present exactly
when `result.accidentDetected && result.detection` is truthy, showing the
class, the confidence as `(confidence * 100).toFixed(1) + "%"`, and
`severity || "N/A"`. -/
def detectionBlock (r : AnalyzeResult) : List String :=
  match r.accidentDetected, r.detection with
  | true, some d =>
      ["Type: " ++ d.«class»,
       "Confidence: " ++ toFixed1Percent d.confidence ++ "%",
       "Severity: " ++ jsOrString d.severity "N/A"]
  | _, _ => []

/-- The annotated-image caption of the rendered summary: present exactly
when `result.processedImage && ...` is truthy, so an absent or empty
`processedImage` renders no caption. -/
def annotatedCaption (r : AnalyzeResult) : List String :=
  match r.processedImage with
  | some s => if s = "" then [] else ["Annotated Image:"]
  | none => []

/-- The textual lines of the rendered summary for a stored result: the
accident-detected line, then the detection block, then the annotated-image
caption when `processedImage` is truthy. -/
def renderSummary (r : AnalyzeResult) : List String :=
  ("Accident Detected: " ++ (if r.accidentDetected then "Yes" else "No"))
    :: detectionBlock r
    ++ annotatedCaption r

/-- The `disabled` attribute of the Analyze button: `loading || !imageFile`. -/
def analyzeDisabled (s : PredictState) : Bool :=
  s.loading || s.imageFile.isNone

/-- Clicking the Analyze button in the rendered UI: a disabled button fires
no handler, otherwise `handleAnalyze` runs. -/
def clickAnalyze (s : PredictState)
    (api : String → Except JsRejection ApiResponse) :
    PredictState × List Event :=
  if analyzeDisabled s then (s, []) else handleAnalyze s api

/-- An allocation or revocation of a preview object URL (`URL.createObjectURL`
/ `URL.revokeObjectURL`), with URLs identified by an allocation counter. -/
inductive ResEvent where
  | alloc (u : Nat)
  | revoke (u : Nat)
deriving DecidableEq, Repr

/-- The object-URL string returned by the `u`-th `URL.createObjectURL`. -/
def urlName (u : Nat) : String := "blob:" ++ toString u

/-- The mounted component: its hook state, the allocation counter for object
URLs, and the cleanup registered by the last run of the preview effect (the
URL its returned closure will revoke), if any. -/
structure CompState where
  predict : PredictState
  nextUrl : Nat
  cleanup : Option Nat
deriving DecidableEq, Repr

/-- One run of the `useEffect` on `[imageFile]`: React first runs the
previous run's cleanup (revoking its URL, when one was registered); then, if
a file is selected, a fresh object URL is created, stored in `previewUrl`,
and its revocation registered as cleanup; otherwise `previewUrl` is cleared
and no cleanup is registered. -/
def runEffect (c : CompState) : CompState × List ResEvent :=
  let revokes : List ResEvent :=
    match c.cleanup with
    | some u => [.revoke u]
    | none => []
  match c.predict.imageFile with
  | some _ =>
      ({ predict := { c.predict with previewUrl := some (urlName c.nextUrl) },
         nextUrl := c.nextUrl + 1,
         cleanup := some c.nextUrl },
       revokes ++ [.alloc c.nextUrl])
  | none =>
      ({ predict := { c.predict with previewUrl := none },
         nextUrl := c.nextUrl,
         cleanup := none },
       revokes)

/-- A change event on the file input: either it carries a (fresh) file, or it
carries none (e.g. the user cancelled the picker). -/
inductive CompEvent where
  | changeFile (f : File)
  | changeEmpty
deriving Repr

/-- Processing one change event.  A carried file is a fresh object, so
`setImageFile` changes the `[imageFile]` dependency and the effect re-runs;
an empty change leaves `imageFile` untouched and the effect does not run. -/
def stepComp (c : CompState) (e : CompEvent) : CompState × List ResEvent :=
  match e with
  | .changeFile f =>
      runEffect { c with predict := handleFileChange c.predict (some f) }
  | .changeEmpty =>
      ({ c with predict := handleFileChange c.predict none }, [])

/-- Mounting the component: initial hook state, then the first effect run. -/
def mount : CompState × List ResEvent :=
  runEffect { predict := initialState, nextUrl := 0, cleanup := none }

/-- Processing a sequence of change events, collecting resource events. -/
def runEvents : CompState → List CompEvent → CompState × List ResEvent
  | c, [] => (c, [])
  | c, e :: es =>
      let p1 := stepComp c e
      let p2 := runEvents p1.1 es
      (p2.1, p1.2 ++ p2.2)

/-- Unmounting: React runs the last registered effect cleanup. -/
def unmountEvents (c : CompState) : List ResEvent :=
  match c.cleanup with
  | some u => [.revoke u]
  | none => []

/-- All object-URL allocations and revocations across a full component
lifetime: mount, a sequence of file-input change events, then unmount. -/
def lifetimeEvents (es : List CompEvent) : List ResEvent :=
  mount.2 ++ (runEvents mount.1 es).2 ++ unmountEvents (runEvents mount.1 es).1

/-- The resource events of the rest of a lifetime started in state `c`:
the events of the remaining change events followed by the unmount cleanup. -/
def tailEvents (c : CompState) (es : List CompEvent) : List ResEvent :=
  (runEvents c es).2 ++ unmountEvents (runEvents c es).1

/-- A registered effect cleanup always revokes an already-allocated URL. -/
def CleanupBound (c : CompState) : Prop :=
  ∀ u, c.cleanup = some u → u < c.nextUrl

/-- Whether an event is the completion of the file encoding. -/
def Event.isEncodeDone : Event → Bool
  | .encodeDone _ => true
  | _ => false

/-- The claim's error-message selection, taken from the spec's words: the
rejection's message, or the generic message exactly when the rejection
carries no message. -/
def errorMessageSpec (rej : JsRejection) : String :=
  match rej.messageField with
  | some m => m
  | none => "Error analyzing image"

/-- The amended error-message selection: the rejection's message, falling
back to the generic message when the rejection carries no message or an
empty message (JavaScript falsiness of `err.message`). -/
def errorMessageAmended (rej : JsRejection) : String :=
  match rej.messageField with
  | some m => if m = "" then "Error analyzing image" else m
  | none => "Error analyzing image"

/-- The claim's severity display, taken from the spec's words: the severity
itself when present, the placeholder exactly when it is absent. -/
def severityDisplaySpec (sev : Option String) : String :=
  match sev with
  | some s => s
  | none => "N/A"

/-- The amended severity display: the severity when present and non-empty,
the placeholder when it is absent or empty (JavaScript falsiness of
`severity`). -/
def severityDisplayAmended (sev : Option String) : String :=
  match sev with
  | some s => if s = "" then "N/A" else s
  | none => "N/A"

/-- A file whose read succeeds with a fixed data URL. -/
def fOK : File := { name := "img.png", readOutcome := some "data:image/png;base64,AAAA" }

/-- A file whose read fails (`FileReader` fires `onerror`). -/
def fBad : File := { name := "broken.png", readOutcome := none }

/-- The spec's example detection: class collision, confidence 0.87,
severity high. -/
def dHigh : Detection := { «class» := "collision", confidence := mkRat 87 100, severity := some "high" }

/-- A detection whose severity is present but empty. -/
def dEmptySev : Detection := { «class» := "collision", confidence := mkRat 87 100, severity := some "" }

/-- A successful response carrying the example detection. -/
def respHigh : ApiResponse :=
  { success := true, accidentDetected := true, detection := some dHigh,
    processedImage := some "annotated.png" }

/-- An `analyzeImage` behaviour that always succeeds with `respHigh`. -/
def apiOk : String → Except JsRejection ApiResponse := fun _ => .ok respHigh

/-- An `analyzeImage` behaviour that always rejects with an error whose
`message` is the empty string. -/
def apiEmptyMsg : String → Except JsRejection ApiResponse :=
  fun _ => .error (.errObj (some ""))

/-- The initial state with the readable file selected. -/
def sFile : PredictState := { initialState with imageFile := some fOK }

/-- The initial state with the unreadable file selected. -/
def sBadFile : PredictState := { initialState with imageFile := some fBad }

/-- A stored result with the example detection and no annotated image. -/
def rHigh : AnalyzeResult :=
  { success := true, accidentDetected := true, detection := some dHigh, processedImage := none }

/-- A stored result whose detection severity is present but empty. -/
def rEmptySev : AnalyzeResult :=
  { success := true, accidentDetected := true, detection := some dEmptySev, processedImage := none }

/-- A stored result with `accidentDetected = false` but a detection present. -/
def rNoAccident : AnalyzeResult :=
  { success := true, accidentDetected := false, detection := some dHigh, processedImage := none }

/-! ## Theorems -/

/-- Auxiliary: the code's `err.message || "Error analyzing image"` agrees
with the amended message selection. -/
theorem jsOrString_messageField (rej : JsRejection) :
    jsOrString rej.messageField "Error analyzing image" = errorMessageAmended rej := by
  cases rej with
  | str s => rfl
  | errObj m => cases m <;> simp [jsOrString, errorMessageAmended, JsRejection.messageField]

/-- C1: with a file selected, `handleAnalyze` first sets loading and clears
error and result, in that order; when the encoding completes with payload
`b`, the encode completion sits at trace position 3 and the single
`analyzeImage` call, with exactly that payload, immediately after it at
position 4; when the encoding fails, no `analyzeImage` call is made. -/
theorem C1_encode_then_send (s : PredictState) (f : File)
    (api : String → Except JsRejection ApiResponse)
    (hf : s.imageFile = some f) :
    (handleAnalyze s api).2.take 3 =
      [.setLoading true, .setError none, .setResult none] ∧
    (match f.readOutcome with
     | some b =>
         (handleAnalyze s api).2.countP Event.isApiCall = 1 ∧
         (handleAnalyze s api).2.get? 3 = some (.encodeDone b) ∧
         (handleAnalyze s api).2.get? 4 = some (.apiCall b)
     | none =>
         (handleAnalyze s api).2.countP Event.isApiCall = 0) := by
  cases hr : f.readOutcome with
  | none =>
      simp [handleAnalyze, convertFileToBase64, hf, hr,
        List.countP, List.countP.go, Event.isApiCall]
  | some b =>
      cases ha : api b with
      | error e =>
          simp [handleAnalyze, convertFileToBase64, hf, hr, ha,
            List.countP, List.countP.go, Event.isApiCall]
      | ok resp =>
          simp [handleAnalyze, convertFileToBase64, hf, hr, ha,
            List.countP, List.countP.go, Event.isApiCall]

/-- Witness for C1 at the readable file with an always-succeeding API. -/
theorem C1_encode_then_send_witness :
    (handleAnalyze sFile apiOk).2.take 3 =
      [.setLoading true, .setError none, .setResult none] ∧
    (match fOK.readOutcome with
     | some b =>
         (handleAnalyze sFile apiOk).2.countP Event.isApiCall = 1 ∧
         (handleAnalyze sFile apiOk).2.get? 3 = some (.encodeDone b) ∧
         (handleAnalyze sFile apiOk).2.get? 4 = some (.apiCall b)
     | none =>
         (handleAnalyze sFile apiOk).2.countP Event.isApiCall = 0) :=
  C1_encode_then_send sFile fOK apiOk rfl

/-- C2 counterexample: when `analyzeImage` rejects with an error whose
`message` is the empty string, the claim as stated demands `error = ""`, but
the code stores the generic message (JavaScript `||` treats `""` as absent). -/
theorem C2_counterexample :
    errorMessageSpec (.errObj (some "")) = "" ∧
    (handleAnalyze sFile apiEmptyMsg).1.error = some "Error analyzing image" ∧
    (handleAnalyze sFile apiEmptyMsg).1.error ≠
      some (errorMessageSpec (.errObj (some ""))) := by
  decide

/-- C2 (amended): every failed attempt — a read failure, whose rejection is
the bare string `"Error reading file"`, or an `analyzeImage` rejection —
ends with `error` holding the rejection's message, falling back to the
generic message when the rejection carries no message or an empty message,
with `loading = false` and `result = none`. -/
theorem C2_failure_message (s : PredictState) (f : File) (rej : JsRejection)
    (api : String → Except JsRejection ApiResponse)
    (hf : s.imageFile = some f)
    (hfail : (f.readOutcome = none ∧ rej = .str "Error reading file") ∨
             (∃ b, f.readOutcome = some b ∧ api b = .error rej)) :
    (handleAnalyze s api).1.error = some (errorMessageAmended rej) ∧
    (handleAnalyze s api).1.loading = false ∧
    (handleAnalyze s api).1.result = none := by
  rcases hfail with ⟨hn, hrej⟩ | ⟨b, hb, ha⟩
  · subst hrej
    simp [handleAnalyze, convertFileToBase64, hf, hn, jsOrString_messageField]
  · simp [handleAnalyze, convertFileToBase64, hf, hb, ha, jsOrString_messageField]

/-- Witness for C2 at the unreadable file: the encoding failure is surfaced
via the generic message. -/
theorem C2_failure_message_witness :
    sBadFile.imageFile = some fBad ∧
    fBad.readOutcome = none ∧
    (handleAnalyze sBadFile apiOk).1.error = some "Error analyzing image" ∧
    (handleAnalyze sBadFile apiOk).1.loading = false ∧
    (handleAnalyze sBadFile apiOk).1.result = none := by
  refine ⟨rfl, rfl, ?_⟩
  have h := C2_failure_message sBadFile fBad (.str "Error reading file") apiOk rfl
    (Or.inl ⟨rfl, rfl⟩)
  simpa [errorMessageAmended, JsRejection.messageField] using h

/-- C5 counterexample: a detection whose severity is present but empty
renders the placeholder, not the (empty) severity the claim as stated
demands (JavaScript `||` treats `""` as absent). -/
theorem C5_counterexample :
    rEmptySev.accidentDetected = true ∧
    rEmptySev.detection = some dEmptySev ∧
    dEmptySev.severity = some "" ∧
    renderSummary rEmptySev =
      ["Accident Detected: Yes", "Type: collision",
       "Confidence: 87.0%", "Severity: N/A"] ∧
    "Severity: " ++ severityDisplaySpec dEmptySev.severity ≠ "Severity: N/A" := by
  decide

/-- C5 (amended): a stored result with an accident detected and a detection
present renders the class after "Type:", the confidence times 100 with one
decimal place and a percent sign, and the severity, with the "N/A"
placeholder when the severity is absent or empty. -/
theorem C5_detection_render (r : AnalyzeResult) (d : Detection)
    (h1 : r.accidentDetected = true) (h2 : r.detection = some d) :
    renderSummary r =
      "Accident Detected: Yes"
        :: ["Type: " ++ d.«class»,
            "Confidence: " ++ toFixed1Percent d.confidence ++ "%",
            "Severity: " ++ severityDisplayAmended d.severity]
        ++ annotatedCaption r := by
  have key : jsOrString d.severity "N/A" = severityDisplayAmended d.severity := by
    cases d.severity <;> simp [jsOrString, severityDisplayAmended]
  simp [renderSummary, detectionBlock, h1, h2, key]

/-- Witness for C5 at the spec's example detection: confidence 0.87 renders
as "87.0%" and severity "high" is shown. -/
theorem C5_detection_render_witness :
    rHigh.accidentDetected = true ∧
    rHigh.detection = some dHigh ∧
    renderSummary rHigh =
      ["Accident Detected: Yes", "Type: collision",
       "Confidence: 87.0%", "Severity: high"] := by
  refine ⟨rfl, rfl, ?_⟩
  have h := C5_detection_render rHigh dHigh rfl rfl
  rw [h]
  decide

/-- C3: when no file is selected, `handleAnalyze` performs no encoding and no
`analyzeImage` call, synchronously sets the validation error message, and
leaves `loading` and `result` unchanged. -/
theorem C3_no_file_validation (s : PredictState)
    (api : String → Except JsRejection ApiResponse)
    (h : s.imageFile = none) :
    (handleAnalyze s api).1.error = some "Please select an image to analyze." ∧
    (handleAnalyze s api).1.loading = s.loading ∧
    (handleAnalyze s api).1.result = s.result ∧
    (handleAnalyze s api).2.countP Event.isApiCall = 0 ∧
    (handleAnalyze s api).2.countP Event.isEncodeDone = 0 ∧
    (handleAnalyze s api).2 = [.setError (some "Please select an image to analyze.")] := by
  simp [handleAnalyze, h, List.countP, List.countP.go, Event.isApiCall, Event.isEncodeDone]

/-- Witness for C3 at the initial state (no file selected). -/
theorem C3_no_file_validation_witness :
    (handleAnalyze initialState apiOk).1.error = some "Please select an image to analyze." ∧
    (handleAnalyze initialState apiOk).1.loading = initialState.loading ∧
    (handleAnalyze initialState apiOk).1.result = initialState.result ∧
    (handleAnalyze initialState apiOk).2.countP Event.isApiCall = 0 ∧
    (handleAnalyze initialState apiOk).2.countP Event.isEncodeDone = 0 ∧
    (handleAnalyze initialState apiOk).2 = [.setError (some "Please select an image to analyze.")] :=
  C3_no_file_validation initialState apiOk rfl

/-- C4: on a successful `analyzeImage` response, `handleAnalyze` stores the
normalized result whose fields are copied from the response, and ends with
`loading = false` and `error = none`. -/
theorem C4_success_normalized (s : PredictState) (f : File) (b : String)
    (resp : ApiResponse) (api : String → Except JsRejection ApiResponse)
    (hf : s.imageFile = some f) (hb : f.readOutcome = some b)
    (ha : api b = .ok resp) :
    (handleAnalyze s api).1.result =
      some { success := resp.success, accidentDetected := resp.accidentDetected,
             detection := resp.detection, processedImage := resp.processedImage } ∧
    (handleAnalyze s api).1.loading = false ∧
    (handleAnalyze s api).1.error = none := by
  simp [handleAnalyze, convertFileToBase64, hf, hb, ha]

/-- Witness for C4: the readable file with an always-succeeding API. -/
theorem C4_success_normalized_witness :
    (handleAnalyze sFile apiOk).1.result =
      some { success := respHigh.success, accidentDetected := respHigh.accidentDetected,
             detection := respHigh.detection, processedImage := respHigh.processedImage } ∧
    (handleAnalyze sFile apiOk).1.loading = false ∧
    (handleAnalyze sFile apiOk).1.error = none :=
  C4_success_normalized sFile fOK "data:image/png;base64,AAAA" respHigh apiOk rfl rfl rfl

/-- C6: a stored result with `accidentDetected = false` renders
"Accident Detected: No" and no detection block, whether or not a detection
value is present. -/
theorem C6_no_accident_no_block (r : AnalyzeResult)
    (h : r.accidentDetected = false) :
    detectionBlock r = [] ∧
    renderSummary r = "Accident Detected: No" :: annotatedCaption r := by
  refine ⟨?_, ?_⟩ <;> simp [detectionBlock, renderSummary, h]

/-- Witness for C6 at a result that does carry a detection value. -/
theorem C6_no_accident_no_block_witness :
    detectionBlock rNoAccident = [] ∧
    renderSummary rNoAccident = "Accident Detected: No" :: annotatedCaption rNoAccident :=
  C6_no_accident_no_block rNoAccident rfl

/-- C7: a change event carrying a file clears the error and the result,
stores the file, and derives a fresh preview object URL for it. -/
theorem C7_select_clears_and_previews (c : CompState) (f : File) :
    (stepComp c (.changeFile f)).1.predict.error = none ∧
    (stepComp c (.changeFile f)).1.predict.result = none ∧
    (stepComp c (.changeFile f)).1.predict.imageFile = some f ∧
    (stepComp c (.changeFile f)).1.predict.previewUrl = some (urlName c.nextUrl) ∧
    ResEvent.alloc c.nextUrl ∈ (stepComp c (.changeFile f)).2 := by
  cases hc : c.cleanup <;>
    simp [stepComp, runEffect, handleFileChange, hc]

/-- C9: the Analyze button is disabled whenever an analysis is loading or no
file is selected, so a click in either situation runs no handler at all. -/
theorem C9_button_guard (s : PredictState)
    (api : String → Except JsRejection ApiResponse)
    (h : s.loading = true ∨ s.imageFile = none) :
    analyzeDisabled s = true ∧ clickAnalyze s api = (s, []) := by
  have hd : analyzeDisabled s = true := by
    rcases h with h | h <;> simp [analyzeDisabled, h]
  exact ⟨hd, by simp [clickAnalyze, hd]⟩

/-- Witness for C9 at the initial state (no file selected). -/
theorem C9_button_guard_witness :
    analyzeDisabled initialState = true ∧
    clickAnalyze initialState apiOk = (initialState, []) :=
  C9_button_guard initialState apiOk (Or.inr rfl)

/-- C10: a change event carrying no file clears the error and leaves the
selected file, the preview URL, and the stored result unchanged, running no
effect and touching no object URL. -/
theorem C10_empty_change_frame (c : CompState) :
    (stepComp c .changeEmpty).1.predict.error = none ∧
    (stepComp c .changeEmpty).1.predict.imageFile = c.predict.imageFile ∧
    (stepComp c .changeEmpty).1.predict.previewUrl = c.predict.previewUrl ∧
    (stepComp c .changeEmpty).1.predict.result = c.predict.result ∧
    (stepComp c .changeEmpty).2 = [] := by
  simp [stepComp, handleFileChange]

/-- Auxiliary: unfolding one change event of a lifetime tail. -/
theorem tailEvents_cons (c : CompState) (e : CompEvent) (es : List CompEvent) :
    tailEvents c (e :: es) = (stepComp c e).2 ++ tailEvents (stepComp c e).1 es := by
  simp [tailEvents, runEvents]

/-- Auxiliary: a lifetime tail with no change events is just the unmount
cleanup. -/
theorem tailEvents_nil (c : CompState) : tailEvents c [] = unmountEvents c := rfl

/-- Auxiliary: an empty change event contributes no resource events. -/
theorem stepComp_changeEmpty_snd (c : CompState) :
    (stepComp c .changeEmpty).2 = [] := rfl

/-- Auxiliary: an empty change event keeps the allocation counter. -/
theorem stepComp_changeEmpty_nextUrl (c : CompState) :
    (stepComp c .changeEmpty).1.nextUrl = c.nextUrl := rfl

/-- Auxiliary: an empty change event keeps the registered cleanup. -/
theorem stepComp_changeEmpty_cleanup (c : CompState) :
    (stepComp c .changeEmpty).1.cleanup = c.cleanup := rfl

/-- Auxiliary: a file-change event revokes the previously registered URL, if
any, then allocates the next URL. -/
theorem stepComp_changeFile_snd (c : CompState) (f : File) :
    (stepComp c (.changeFile f)).2 =
      (match c.cleanup with
       | some v => [ResEvent.revoke v]
       | none => []) ++ [ResEvent.alloc c.nextUrl] := by
  cases h : c.cleanup <;> simp [stepComp, runEffect, handleFileChange, h]

/-- Auxiliary: a file-change event advances the allocation counter. -/
theorem stepComp_changeFile_nextUrl (c : CompState) (f : File) :
    (stepComp c (.changeFile f)).1.nextUrl = c.nextUrl + 1 := by
  cases h : c.cleanup <;> simp [stepComp, runEffect, handleFileChange, h]

/-- Auxiliary: after a file-change event the cleanup revokes the URL just
allocated. -/
theorem stepComp_changeFile_cleanup (c : CompState) (f : File) :
    (stepComp c (.changeFile f)).1.cleanup = some c.nextUrl := by
  cases h : c.cleanup <;> simp [stepComp, runEffect, handleFileChange, h]

/-- Auxiliary: counting a revocation in a one-revocation list. -/
theorem count_revoke_pair (v u : Nat) :
    List.count (ResEvent.revoke u) [ResEvent.revoke v] = if u = v then 1 else 0 := by
  by_cases h : u = v <;> simp [List.count_cons, h]

/-- Auxiliary main lemma for the object-URL lifecycle: starting from any
state whose registered cleanup (if any) concerns an already-allocated URL,
every URL allocated in the remaining lifetime is fresh, and every URL that
is either pending cleanup or allocated in the remaining lifetime is revoked
exactly once, all others never. -/
theorem tailEvents_spec (es : List CompEvent) :
    ∀ c : CompState, CleanupBound c →
      (∀ u, ResEvent.alloc u ∈ tailEvents c es → c.nextUrl ≤ u) ∧
      (∀ u, (tailEvents c es).count (ResEvent.revoke u) =
          if c.cleanup = some u ∨ ResEvent.alloc u ∈ tailEvents c es then 1 else 0) := by
  induction es with
  | nil =>
      intro c hc
      constructor
      · intro u hu
        rw [tailEvents_nil] at hu
        cases hcu : c.cleanup <;> simp [unmountEvents, hcu] at hu
      · intro u
        rw [tailEvents_nil]
        cases hcu : c.cleanup with
        | none => simp [unmountEvents, hcu]
        | some v =>
            by_cases h : v = u <;>
              simp [unmountEvents, hcu, h, List.count_cons, List.count_nil]
  | cons e es ih =>
      intro c hc
      cases e with
      | changeEmpty =>
          have hc1 : CleanupBound (stepComp c .changeEmpty).1 := by
            intro u hu
            rw [stepComp_changeEmpty_cleanup] at hu
            rw [stepComp_changeEmpty_nextUrl]
            exact hc u hu
          obtain ⟨ihA, ihB⟩ := ih (stepComp c .changeEmpty).1 hc1
          constructor
          · intro u hu
            rw [tailEvents_cons, stepComp_changeEmpty_snd, List.nil_append] at hu
            have := ihA u hu
            rwa [stepComp_changeEmpty_nextUrl] at this
          · intro u
            rw [tailEvents_cons, stepComp_changeEmpty_snd, List.nil_append]
            have := ihB u
            rwa [stepComp_changeEmpty_cleanup] at this
      | changeFile f =>
          have hc1 : CleanupBound (stepComp c (.changeFile f)).1 := by
            intro u hu
            rw [stepComp_changeFile_cleanup] at hu
            rw [stepComp_changeFile_nextUrl]
            obtain rfl : c.nextUrl = u := by injection hu
            omega
          obtain ⟨ihA, ihB⟩ := ih (stepComp c (.changeFile f)).1 hc1
          constructor
          · intro u hu
            rw [tailEvents_cons, stepComp_changeFile_snd] at hu
            rcases List.mem_append.mp hu with hu1 | hu2
            · rcases List.mem_append.mp hu1 with hu3 | hu4
              · exfalso
                cases hcu : c.cleanup <;> simp [hcu] at hu3
              · simp at hu4
                omega
            · have := ihA u hu2
              rw [stepComp_changeFile_nextUrl] at this
              omega
          · intro u
            have htail := ihB u
            rw [stepComp_changeFile_cleanup] at htail
            have hfresh : ResEvent.alloc u ∈ tailEvents (stepComp c (.changeFile f)).1 es →
                c.nextUrl + 1 ≤ u := by
              intro hm
              have := ihA u hm
              rwa [stepComp_changeFile_nextUrl] at this
            rw [tailEvents_cons, stepComp_changeFile_snd, List.append_assoc,
              List.count_append, List.count_append, htail]
            by_cases hmem : ResEvent.alloc u ∈ tailEvents (stepComp c (.changeFile f)).1 es
            · have hlt := hfresh hmem
              have hne : ¬ c.nextUrl = u := by omega
              cases hcu : c.cleanup with
              | none => simp [hmem, hne]
              | some v =>
                  have hvn : v < c.nextUrl := hc v hcu
                  have hvu : ¬ u = v := by omega
                  simp [hmem, hne, hvu, count_revoke_pair]
            · by_cases hn : c.nextUrl = u
              · subst hn
                cases hcu : c.cleanup with
                | none => simp [hmem]
                | some v =>
                    have hvn : v < c.nextUrl := hc v hcu
                    have hvu : ¬ c.nextUrl = v := by omega
                    simp [hmem, hvu, count_revoke_pair]
              · have hn' : ¬ u = c.nextUrl := fun h => hn h.symm
                cases hcu : c.cleanup with
                | none => simp [hmem, hn, hn']
                | some v =>
                    by_cases hvu : v = u
                    · subst hvu
                      simp [hmem, hn, hn', hcu]
                    · have hvu' : ¬ u = v := fun h => hvu h.symm
                      simp [hmem, hn, hn', hvu, hvu', count_revoke_pair]

/-- C8: across a full component lifetime (mount, any sequence of file-input
change events, unmount), every allocated preview object URL is revoked
exactly once — released when a later file selection supersedes it or at
unmount, never twice and never leaked. -/
theorem C8_preview_released_once (es : List CompEvent) (u : Nat)
    (h : ResEvent.alloc u ∈ lifetimeEvents es) :
    (lifetimeEvents es).count (ResEvent.revoke u) = 1 := by
  have hmt : lifetimeEvents es = tailEvents mount.1 es := rfl
  have hcb : CleanupBound mount.1 := by
    intro v hv
    simp [mount, runEffect, initialState] at hv
  obtain ⟨-, hcount⟩ := tailEvents_spec es mount.1 hcb
  rw [hmt] at h ⊢
  rw [hcount u]
  have hclean : mount.1.cleanup = none := rfl
  simp [hclean, h]

/-- Witness for C8: one file selection, whose URL 0 is revoked once. -/
theorem C8_preview_released_once_witness :
    ResEvent.alloc 0 ∈ lifetimeEvents [CompEvent.changeFile fOK] ∧
    (lifetimeEvents [CompEvent.changeFile fOK]).count (ResEvent.revoke 0) = 1 :=
  ⟨by decide, C8_preview_released_once [CompEvent.changeFile fOK] 0 (by decide)⟩

end ResQBridge
